import Mathlib

/-!
Verification of the ranking core of the Mini-Google-Search-Engine repository
(`search_engine.py`, class `MiniGoogleSearch`).

The embedding below translates the class, line by line, into pure Lean
functions:

* Python dictionaries become insertion-ordered association lists
  (`List (String × _)`); overwriting a key keeps its position, inserting a
  fresh key appends — exactly CPython's documented `dict` semantics, on which
  `search`'s iteration over `self.documents` relies.
* The `defaultdict(dict)` used for `inverted_index` is modelled by `dd_get`,
  which returns the (possibly freshly materialized) inner table together with
  the updated outer table, so that "does this access mutate the index?" is a
  provable question rather than an assumption.
* Numbers appearing in scores are modelled in `ℚ`; `math.log` is abstracted
  as the `rlog` field of `Model` and NLTK's `PorterStemmer().stem` as the
  `stem` field.  No settled theorem depends on a pointwise value of either
  function, so all theorems quantify over every `Model` — a strictly stronger
  statement than fixing the two library functions.
* A Python expression that raises (`ZeroDivisionError` in `bm25_score`)
  is modelled by `Option`: `none` is the raised exception, propagated
  exactly as far as the exception would propagate.
-/

namespace MiniGoogle

/-- Abstraction of the two external library functions the engine calls with
result-relevant values: `stem` models `nltk.stem.PorterStemmer().stem` and
`rlog` models `math.log`.  Both are deterministic pure functions in the
source; theorems quantify over all such pairs. -/
structure Model where
  stem : String → String
  rlog : ℚ → ℚ

/-- Characters matched by `\s` in `re.sub(r'[^a-zA-Z\s]', '', text)`
(ASCII whitespace; the engine's pipeline only ever meets ASCII input after
the claims' concrete inputs, and non-ASCII whitespace never survives to a
token boundary decision that any claim depends on). -/
def is_ws (c : Char) : Bool :=
  c = ' ' || c = '\t' || c = '\n' || c = '\r' || c = '\x0b' || c = '\x0c'

/-- Characters kept by `re.sub(r'[^a-zA-Z\s]', '', text)`: ASCII letters and
whitespace. -/
def keep_char (c : Char) : Bool :=
  ('a' ≤ c && c ≤ 'z') || ('A' ≤ c && c ≤ 'Z') || is_ws c

/-- Model of `str.lower` (ASCII case folding; `Char.toLower` lowers exactly
the ASCII uppercase range). -/
def py_lower (s : String) : String :=
  String.mk (s.data.map Char.toLower)

/-- Model of `re.sub(r'[^a-zA-Z\s]', '', text)`: delete every character that
is not an ASCII letter or whitespace. -/
def strip_nonalpha (s : String) : String :=
  String.mk (s.data.filter keep_char)

/-- Split a character list at whitespace, dropping empty pieces, accumulating
the current (reversed) word in the second argument. -/
def ws_split_aux : List Char → List Char → List String
  | [], acc => if acc.isEmpty then [] else [String.mk acc.reverse]
  | c :: cs, acc =>
      if is_ws c then
        (if acc.isEmpty then [] else [String.mk acc.reverse]) ++ ws_split_aux cs []
      else
        ws_split_aux cs (c :: acc)

/-- Whitespace tokenization of a string (Python `str.split()` semantics:
maximal runs of non-whitespace characters, no empty tokens). -/
def ws_split (s : String) : List String :=
  ws_split_aux s.data []

/-- Fused-contraction splits performed by NLTK's Treebank word tokenizer
(`TreebankWordTokenizer.CONTRACTIONS2`): on apostrophe-free lowercase text
the only entries that can fire are the six fused words below; every other
Treebank rule rewrites punctuation that `re.sub` has already deleted. -/
def split_contraction (t : String) : List String :=
  if t = "cannot" then ["can", "not"]
  else if t = "gimme" then ["gim", "me"]
  else if t = "gonna" then ["gon", "na"]
  else if t = "gotta" then ["got", "ta"]
  else if t = "lemme" then ["lem", "me"]
  else if t = "wanna" then ["wan", "na"]
  else [t]

/-- Model of `nltk.tokenize.word_tokenize`, valid on the strings the engine
feeds it (lowercased, ASCII letters and whitespace only, the image of
`strip_nonalpha ∘ py_lower`): Punkt finds a single sentence (no sentence-final
punctuation survives `re.sub`), and the Treebank rules reduce to whitespace
splitting plus the fused-contraction splits. -/
def word_tokenize (s : String) : List String :=
  (ws_split s).flatMap split_contraction

/-- The NLTK English stopword list (`stopwords.words('english')`), the value
of `self.stop_words`.  Entries are written with `\x27` for the apostrophe. -/
def stop_words : List String :=
  ["i", "me", "my", "myself", "we", "our", "ours", "ourselves", "you",
   "you\x27re", "you\x27ve", "you\x27ll", "you\x27d", "your", "yours",
   "yourself", "yourselves", "he", "him", "his", "himself", "she",
   "she\x27s", "her", "hers", "herself", "it", "it\x27s", "its", "itself",
   "they", "them", "their", "theirs", "themselves", "what", "which", "who",
   "whom", "this", "that", "that\x27ll", "these", "those", "am", "is",
   "are", "was", "were", "be", "been", "being", "have", "has", "had",
   "having", "do", "does", "did", "doing", "a", "an", "the", "and", "but",
   "if", "or", "because", "as", "until", "while", "of", "at", "by", "for",
   "with", "about", "against", "between", "into", "through", "during",
   "before", "after", "above", "below", "to", "from", "up", "down", "in",
   "out", "on", "off", "over", "under", "again", "further", "then", "once",
   "here", "there", "when", "where", "why", "how", "all", "any", "both",
   "each", "few", "more", "most", "other", "some", "such", "no", "nor",
   "not", "only", "own", "same", "so", "than", "too", "very", "s", "t",
   "can", "will", "just", "don", "don\x27t", "should", "should\x27ve",
   "now", "d", "ll", "m", "o", "re", "ve", "y", "ain", "aren",
   "aren\x27t", "couldn", "couldn\x27t", "didn", "didn\x27t", "doesn",
   "doesn\x27t", "hadn", "hadn\x27t", "hasn", "hasn\x27t", "haven",
   "haven\x27t", "isn", "isn\x27t", "ma", "mightn", "mightn\x27t",
   "mustn", "mustn\x27t", "needn", "needn\x27t", "shan", "shan\x27t",
   "shouldn", "shouldn\x27t", "wasn", "wasn\x27t", "weren", "weren\x27t",
   "won", "won\x27t", "wouldn", "wouldn\x27t"]

/-- Translation of `MiniGoogleSearch.preprocess_text`: lowercase, delete
non-letters, `word_tokenize`, keep tokens that are not stopwords and have
length greater than 2, stem each survivor.  The filter condition keeps the
source's order of the two tests (`token not in self.stop_words and
len(token) > 2`). -/
def preprocess_text (M : Model) (text : String) : List String :=
  ((word_tokenize (strip_nonalpha (py_lower text))).filter
      (fun t => decide (t ∉ stop_words) && decide (2 < t.length))).map M.stem

/-- Modelled from the spec (section 4.1, claim C8's reference pipeline): the
normalization the spec describes, whose only difference from the source is
that step 3 is a plain whitespace split ("split on whitespace into tokens")
instead of NLTK `word_tokenize`.  Steps in the spec's order: lowercase,
strip non-letters, split on whitespace, drop tokens of length at most 2,
drop stopwords, stem. -/
def spec_normalize (M : Model) (text : String) : List String :=
  ((((ws_split (strip_nonalpha (py_lower text))).filter
        (fun t => decide (2 < t.length))).filter
      (fun t => decide (t ∉ stop_words))).map M.stem)

/-- The spec's pipeline with its tokenization step replaced by the source's
actual tokenizer (`word_tokenize`); the amended form of claim C8. -/
def spec_normalize_treebank (M : Model) (text : String) : List String :=
  ((((word_tokenize (strip_nonalpha (py_lower text))).filter
        (fun t => decide (2 < t.length))).filter
      (fun t => decide (t ∉ stop_words))).map M.stem)

/-! ### Python dictionaries as insertion-ordered association lists -/

/-- Lookup in an insertion-ordered association list (Python `d[k]` /
`d.get(k)`). -/
def alookup {α : Type} : List (String × α) → String → Option α
  | [], _ => none
  | (k, v) :: rest, q => if q = k then some v else alookup rest q

/-- Membership test (Python `k in d`). -/
def has_key {α : Type} (d : List (String × α)) (k : String) : Bool :=
  (alookup d k).isSome

/-- Update-or-append (Python `d[k] = v`): an existing key keeps its
position, a fresh key is appended at the end — CPython dict semantics. -/
def dict_set {α : Type} : List (String × α) → String → α → List (String × α)
  | [], k, v => [(k, v)]
  | (k', v') :: rest, k, v =>
      if k' = k then (k, v) :: rest else (k', v') :: dict_set rest k v

/-- Composed lookup: outer term entry, then inner per-document entry. -/
def alookup2 {α : Type} (d : List (String × List (String × α)))
    (k1 k2 : String) : Option α :=
  (alookup d k1).bind (fun inner => alookup inner k2)

/-- The inverted index: term ↦ (document id ↦ occurrence count), a
`defaultdict(dict)` in the source. -/
abbrev InvIndex := List (String × List (String × Nat))

/-- Subscripting the `defaultdict(dict)` (`self.inverted_index[token]`):
returns the inner table, materializing an empty one — and thereby mutating
the outer table — when the key is absent. -/
def dd_get (d : InvIndex) (k : String) : List (String × Nat) × InvIndex :=
  match alookup d k with
  | some inner => (inner, d)
  | none => ([], d ++ [(k, [])])

/-- Translation of `collections.Counter(tokens)`: occurrence counts, keys in
first-occurrence order (`Counter` preserves insertion order). -/
def counter_of (tokens : List String) : List (String × Nat) :=
  tokens.foldl (fun acc t => dict_set acc t ((alookup acc t).getD 0 + 1)) []

/-! ### Engine state -/

/-- A stored document record (the dict built in `add_document`): title, the
truncated snippet stored under `'content'`, url, and the full token
sequence. -/
structure Doc where
  title : String
  content : String
  url : String
  tokens : List String
  deriving DecidableEq

/-- The mutable state of a `MiniGoogleSearch` instance, restricted to the
fields that any method ever reads: `documents`, `inverted_index`,
`total_docs`, `avg_doc_length`.  (`doc_lengths` is written once in
`__init__` and never touched again; the TF-IDF vectorizer never contributes
to `search` and is out of scope per the spec, section 1.) -/
structure Engine where
  documents : List (String × Doc)
  inverted_index : InvIndex
  total_docs : Nat
  avg_doc_length : ℚ
  deriving DecidableEq

/-- The state established by `MiniGoogleSearch.__init__`. -/
def empty_engine : Engine :=
  { documents := [], inverted_index := [], total_docs := 0,
    avg_doc_length := 0 }

/-- Translation of `MiniGoogleSearch.add_document`: store the document
record (snippet = first 200 characters of the body plus an unconditional
`"..."`), fold the token counts into the inverted index exactly as the
source's loop does (including the `defaultdict` materialization of
`self.inverted_index[token]` and the two-step `= 0` / `+= count` update),
and increment `total_docs`.  Note that `avg_doc_length` is not touched:
the source never recomputes it. -/
def add_document (M : Model) (e : Engine) (doc_id title content url : String) :
    Engine :=
  let tokens := preprocess_text M (title ++ " " ++ content)
  let doc : Doc := { title := title, content := content.take 200 ++ "...",
                     url := url, tokens := tokens }
  let documents' := dict_set e.documents doc_id doc
  let index' :=
    (counter_of tokens).foldl
      (fun idx tc =>
        let (inner, idx1) := dd_get idx tc.1
        let inner1 := if has_key inner doc_id then inner
                      else dict_set inner doc_id 0
        let idx2 := dict_set idx1 tc.1 inner1
        dict_set idx2 tc.1
          (dict_set inner1 doc_id (((alookup inner1 doc_id).getD 0) + tc.2)))
      e.inverted_index
  { documents := documents', inverted_index := index',
    total_docs := e.total_docs + 1, avg_doc_length := e.avg_doc_length }

/-- One recorded `add_document` call. -/
structure AddCall where
  id : String
  title : String
  content : String
  url : String

/-- The state reached from a fresh instance by a sequence of `add_document`
calls. -/
def build_state (M : Model) (calls : List AddCall) : Engine :=
  calls.foldl (fun e c => add_document M e c.id c.title c.content c.url)
    empty_engine

/-- Arithmetic mean of the token-sequence lengths of the currently stored
documents (the value the spec requires `avg_doc_length` to equal). -/
def doc_mean_length (e : Engine) : ℚ :=
  (e.documents.map (fun p => (p.2.tokens.length : ℚ))).sum /
    (e.documents.length : ℚ)

/-! ### Ranking -/

/-- The per-query-token loop of `bm25_score` (lines 99-111).  The state is
the running `score` plus the inverted index, threaded through every
`self.inverted_index[token]` subscript via `dd_get`; `(none, idx)` is the
`ZeroDivisionError` raised by `doc_length / self.avg_doc_length` (and, for
completeness, by a vanishing BM25 denominator), which aborts the loop with
the index in whatever state the accesses so far left it.  `math.log` cannot
raise here: its argument exceeds `1`, since `df` is at most the number of
stored ids, which is at most `total_docs`.  Constants `k1 = 3/2` and
`b = 3/4` are the defaults `k1=1.5, b=0.75`, which no caller overrides. -/
def bm_loop (M : Model) (doc_id : String) (doc_length : ℚ) (total_docs : Nat)
    (avg : ℚ) : List String → InvIndex → ℚ → Option ℚ × InvIndex
  | [], idx, score => (some score, idx)
  | tok :: rest, idx, score =>
      if has_key idx tok then
        let (inner, idx1) := dd_get idx tok
        if has_key inner doc_id then
          let (inner2, idx2) := dd_get idx1 tok
          let tf : ℚ := ((alookup inner2 doc_id).getD 0 : Nat)
          let (inner3, idx3) := dd_get idx2 tok
          let df : ℚ := (inner3.length : Nat)
          let idf := M.rlog (((total_docs : ℚ) - df + 1/2) / (df + 1/2) + 1)
          if avg = 0 then (none, idx3)
          else
            let denom := tf + (3/2) * (1 - 3/4 + (3/4) * (doc_length / avg))
            if denom = 0 then (none, idx3)
            else bm_loop M doc_id doc_length total_docs avg rest idx3
                   (score + idf * (tf * (3/2 + 1)) / denom)
        else bm_loop M doc_id doc_length total_docs avg rest idx1 score
      else bm_loop M doc_id doc_length total_docs avg rest idx score

/-- Default document record used for the (always-satisfied) lookups of a
key known to be present. -/
def default_doc : Doc := { title := "", content := "", url := "", tokens := [] }

/-- Translation of `MiniGoogleSearch.bm25_score(query, doc_id)`: `0` for an
unknown document id, otherwise the summed BM25 contributions of the
normalized query tokens, with `none` for the `ZeroDivisionError` raised as
soon as a matching token forces the `doc_length / avg_doc_length`
division while `avg_doc_length` is `0`. -/
def bm25_score (M : Model) (documents : List (String × Doc)) (idx : InvIndex)
    (total_docs : Nat) (avg : ℚ) (query doc_id : String) :
    Option ℚ × InvIndex :=
  if has_key documents doc_id then
    let doc := (alookup documents doc_id).getD default_doc
    bm_loop M doc_id (doc.tokens.length : ℚ) total_docs avg
      (preprocess_text M query) idx 0
  else (some 0, idx)

/-- The raw term-frequency loop of `search` (lines 130-133), threading the
inverted index through the same guarded subscripts. -/
def tf_loop (doc_id : String) : List String → InvIndex → ℚ → ℚ × InvIndex
  | [], idx, acc => (acc, idx)
  | tok :: rest, idx, acc =>
      if has_key idx tok then
        let (inner, idx1) := dd_get idx tok
        if has_key inner doc_id then
          let (inner2, idx2) := dd_get idx1 tok
          tf_loop doc_id rest idx2
            (acc + (((alookup inner2 doc_id).getD 0 : Nat) : ℚ))
        else tf_loop doc_id rest idx1 acc
      else tf_loop doc_id rest idx acc

/-- One entry of the result list built by `search`. -/
structure Result where
  doc_id : String
  score : ℚ
  title : String
  snippet : String
  url : String
  deriving DecidableEq

/-- The per-document loop of `search` (lines 125-145): for each stored
document id in insertion order, compute the BM25 score (propagating its
exception), the raw term-frequency score, and the combined score
`bm25 * 0.7 + tf * 0.3`, appending a result entry when it is positive. -/
def collect (M : Model) (documents : List (String × Doc)) (total_docs : Nat)
    (avg : ℚ) (query : String) (query_tokens : List String) :
    List String → InvIndex → Option (List Result) × InvIndex
  | [], idx => (some [], idx)
  | doc_id :: rest, idx =>
      match bm25_score M documents idx total_docs avg query doc_id with
      | (none, idx1) => (none, idx1)
      | (some bm, idx1) =>
          let (tf, idx2) := tf_loop doc_id query_tokens idx1 0
          let combined := bm * (7/10) + tf * (3/10)
          let doc := (alookup documents doc_id).getD default_doc
          let entry : Result :=
            { doc_id := doc_id, score := combined, title := doc.title,
              snippet := doc.content, url := doc.url }
          match collect M documents total_docs avg query query_tokens rest idx2 with
          | (none, idx3) => (none, idx3)
          | (some rs, idx3) =>
              ((some (if 0 < combined then entry :: rs else rs)), idx3)

/-- Stable descending insertion: place `x` after every earlier element whose
score is strictly greater, before the first one whose score is not. -/
def insert_desc (x : Result) : List Result → List Result
  | [] => [x]
  | y :: ys => if x.score < y.score then y :: insert_desc x ys else x :: y :: ys

/-- Model of `results.sort(key=lambda x: x['score'], reverse=True)`:
a stable sort by descending score (CPython's sort is documented stable;
this insertion sort has the same specification). -/
def sort_desc : List Result → List Result
  | [] => []
  | x :: xs => insert_desc x (sort_desc xs)

/-- Python slice `l[:k]`, including the negative-`k` case
(`l[:-n]` keeps `max(len(l) - n, 0)` elements). -/
def py_take {α : Type} (k : Int) (l : List α) : List α :=
  if 0 ≤ k then l.take k.toNat else l.take (l.length - (-k).toNat)

/-- Translation of `MiniGoogleSearch.search(query, top_k)`: empty corpus
short-circuits to `[]`; otherwise every stored document is scored (first
component `none` when `bm25_score` raises), survivors are stable-sorted by
descending combined score and the list is sliced to `top_k`.  The second
component is the engine state after the call. -/
def search (M : Model) (e : Engine) (query : String) (top_k : Int) :
    Option (List Result) × Engine :=
  if e.total_docs = 0 then (some [], e)
  else
    let query_tokens := preprocess_text M query
    let (res, idx') :=
      collect M e.documents e.total_docs e.avg_doc_length query query_tokens
        (e.documents.map Prod.fst) e.inverted_index
    (res.map (fun rs => py_take top_k (sort_desc rs)),
     { e with inverted_index := idx' })

/-! ### Persistence -/

/-- The data `save_index` serializes: `documents`, the inverted index (as a
plain dict), and `total_docs`.  JSON encoding of this structure — string
keys, string/number/array leaves, object key order preserved — is the
identity at this level of modelling, so the snapshot is the triple itself.
`avg_doc_length` is not part of it. -/
structure Snapshot where
  documents : List (String × Doc)
  inverted_index : InvIndex
  total_docs : Nat

/-- Translation of `MiniGoogleSearch.save_index`. -/
def save_index (e : Engine) : Snapshot :=
  { documents := e.documents, inverted_index := e.inverted_index,
    total_docs := e.total_docs }

/-- Translation of the successful branch of `MiniGoogleSearch.load_index`
applied to instance `e`: `documents`, `inverted_index` and `total_docs` are
replaced from the snapshot; `avg_doc_length` (never read from disk, never
recomputed) keeps the instance's current value. -/
def load_index (e : Engine) (s : Snapshot) : Engine :=
  { documents := s.documents, inverted_index := s.inverted_index,
    total_docs := s.total_docs, avg_doc_length := e.avg_doc_length }

/-! ### General lemmas: the guarded `defaultdict` accesses never mutate -/

/-- Subscripting the `defaultdict` at a present key returns the stored inner
table and leaves the outer table unchanged. -/
lemma dd_get_of_mem {idx : InvIndex} {k : String} (h : has_key idx k = true) :
    dd_get idx k = ((alookup idx k).getD [], idx) := by
  unfold has_key at h
  unfold dd_get
  cases h' : alookup idx k with
  | none => rw [h'] at h; simp at h
  | some v => simp

/-- The raw term-frequency loop leaves the inverted index unchanged: every
subscript it performs is guarded by a membership test. -/
lemma tf_loop_idx (doc_id : String) :
    ∀ (toks : List String) (idx : InvIndex) (acc : ℚ),
      (tf_loop doc_id toks idx acc).2 = idx := by
  intro toks
  induction toks with
  | nil => intro idx acc; rfl
  | cons t rest ih =>
      intro idx acc
      rw [tf_loop]
      by_cases h1 : has_key idx t
      · simp only [if_pos h1, dd_get_of_mem h1]
        by_cases h2 : has_key ((alookup idx t).getD []) doc_id
        · simp only [if_pos h2, dd_get_of_mem h1]
          exact ih idx _
        · simp only [if_neg h2]; exact ih idx acc
      · simp only [if_neg h1]; exact ih idx acc

/-- The BM25 loop leaves the inverted index unchanged, on every path
including the two exceptional ones. -/
lemma bm_loop_idx (M : Model) (doc_id : String) (dl : ℚ) (n : Nat) (avg : ℚ) :
    ∀ (toks : List String) (idx : InvIndex) (s : ℚ),
      (bm_loop M doc_id dl n avg toks idx s).2 = idx := by
  intro toks
  induction toks with
  | nil => intro idx s; rfl
  | cons t rest ih =>
      intro idx s
      rw [bm_loop]
      by_cases h1 : has_key idx t
      · simp only [if_pos h1, dd_get_of_mem h1]
        by_cases h2 : has_key ((alookup idx t).getD []) doc_id
        · simp only [if_pos h2, dd_get_of_mem h1]
          by_cases h3 : avg = 0
          · simp only [if_pos h3]
          · simp only [if_neg h3]
            by_cases h4 :
                ((((alookup ((alookup idx t).getD []) doc_id).getD 0 : Nat) : ℚ) +
                  (3/2) * (1 - 3/4 + (3/4) * (dl / avg))) = 0
            · simp only [if_pos h4]
            · simp only [if_neg h4]; exact ih idx _
        · simp only [if_neg h2]; exact ih idx s
      · simp only [if_neg h1]; exact ih idx s

/-- `bm25_score` leaves the inverted index unchanged. -/
lemma bm25_score_idx (M : Model) (documents : List (String × Doc))
    (idx : InvIndex) (n : Nat) (avg : ℚ) (query doc_id : String) :
    (bm25_score M documents idx n avg query doc_id).2 = idx := by
  unfold bm25_score
  by_cases h : has_key documents doc_id
  · simp only [if_pos h]; exact bm_loop_idx M doc_id _ n avg _ idx 0
  · simp only [if_neg h]

/-- The per-document loop of `search` leaves the inverted index
unchanged. -/
lemma collect_idx (M : Model) (documents : List (String × Doc)) (n : Nat)
    (avg : ℚ) (query : String) (qts : List String) :
    ∀ (keys : List String) (idx : InvIndex),
      (collect M documents n avg query qts keys idx).2 = idx := by
  intro keys
  induction keys with
  | nil => intro idx; rfl
  | cons d rest ih =>
      intro idx
      rw [collect]
      rcases hbm : bm25_score M documents idx n avg query d with ⟨bm, idx1⟩
      have hidx1 : idx1 = idx := by
        have := bm25_score_idx M documents idx n avg query d
        rw [hbm] at this; exact this
      cases bm with
      | none => exact hidx1
      | some v =>
          rcases htf : tf_loop d qts idx1 0 with ⟨tf, idx2⟩
          have hidx2 : idx2 = idx := by
            have := tf_loop_idx d qts idx1 0
            rw [htf] at this; simp at this; rw [this, hidx1]
          rcases hc : collect M documents n avg query qts rest idx2 with ⟨res3, idx3⟩
          have hidx3 : idx3 = idx := by
            have := ih idx2
            rw [hc] at this; simp at this; rw [this, hidx2]
          cases res3 with
          | none => simp [htf, hc, hidx3]
          | some rs => simp [htf, hc, hidx3]

/-- `search` returns the engine state it was given: no method of the class
writes to any field during a query (helper form, shared by several
theorems below). -/
lemma search_state_eq (M : Model) (e : Engine) (q : String) (k : Int) :
    (search M e q k).2 = e := by
  unfold search
  by_cases h : e.total_docs = 0
  · simp only [if_pos h]
  · simp only [if_neg h]
    rcases hc : collect M e.documents e.total_docs e.avg_doc_length q
        (preprocess_text M q) (e.documents.map Prod.fst) e.inverted_index
      with ⟨res, idx'⟩
    have : idx' = e.inverted_index := by
      have := collect_idx M e.documents e.total_docs e.avg_doc_length q
        (preprocess_text M q) (e.documents.map Prod.fst) e.inverted_index
      rw [hc] at this; exact this
    simp [this]

/-! ### Corpus statistics never change -/

/-- `add_document` copies `avg_doc_length` through unchanged (the source
never recomputes it). -/
lemma add_document_avg (M : Model) (e : Engine) (d t c u : String) :
    (add_document M e d t c u).avg_doc_length = e.avg_doc_length := rfl

/-- Every state reachable by `add_document` calls from a fresh instance has
`avg_doc_length = 0`, the value set by `__init__`. -/
lemma build_state_avg (M : Model) (calls : List AddCall) :
    (build_state M calls).avg_doc_length = 0 := by
  unfold build_state
  have h : ∀ (cs : List AddCall) (e : Engine),
      (cs.foldl (fun e c => add_document M e c.id c.title c.content c.url)
        e).avg_doc_length = e.avg_doc_length := by
    intro cs
    induction cs with
    | nil => intro e; rfl
    | cons c rest ih => intro e; rw [List.foldl_cons, ih, add_document_avg]
  rw [h]; rfl

/-- Saving and reloading into a fresh instance reproduces any state whose
`avg_doc_length` is `0` (which, by `build_state_avg`, every reachable state
is — in the source both the original and the reloaded instance carry the
same never-recomputed value). -/
lemma load_save_eq (e : Engine) (h : e.avg_doc_length = 0) :
    load_index empty_engine (save_index e) = e := by
  cases e with
  | mk d i t a =>
      simp only [load_index, save_index, empty_engine]
      simp_all

/-! ### Stability of the score sort -/

/-- Inserting `x` preserves the subsequence of any fixed score class: every
element `insert_desc` jumps over has a strictly greater score, so `x` lands
in front of exactly the elements of its own score class. -/
lemma filter_insert_desc (s : ℚ) (x : Result) (l : List Result) :
    (insert_desc x l).filter (fun r => decide (r.score = s)) =
      if x.score = s then x :: l.filter (fun r => decide (r.score = s))
      else l.filter (fun r => decide (r.score = s)) := by
  induction l with
  | nil =>
      by_cases hx : x.score = s
      · simp [insert_desc, List.filter, hx]
      · simp [insert_desc, List.filter, hx]
  | cons y ys ih =>
      rw [insert_desc]
      by_cases hxy : x.score < y.score
      · rw [if_pos hxy]
        by_cases hy : y.score = s
        · have hx : ¬ x.score = s := by
            intro h; rw [h, hy] at hxy; exact lt_irrefl s hxy
          simp [List.filter_cons, hy, hx, ih]
        · simp [List.filter_cons, hy, ih]
      · rw [if_neg hxy]
        by_cases hx : x.score = s
        · simp [List.filter_cons, hx]
        · simp [List.filter_cons, hx]

/-- The sort modelling `results.sort(key=..., reverse=True)` is stable:
restricted to any single score value it is the identity, so documents with
equal combined scores keep their original (insertion) order. -/
lemma filter_sort_desc (s : ℚ) (l : List Result) :
    (sort_desc l).filter (fun r => decide (r.score = s)) =
      l.filter (fun r => decide (r.score = s)) := by
  induction l with
  | nil => rfl
  | cons x xs ih =>
      rw [sort_desc, filter_insert_desc]
      by_cases hx : x.score = s
      · simp [List.filter_cons, hx, ih]
      · simp [List.filter_cons, hx, ih]

/-- The unsorted result list produced by the per-document loop carries the
document ids as a subsequence of the iteration order, i.e. of the Document
Store's insertion order. -/
lemma collect_doc_ids_sublist (M : Model) (documents : List (String × Doc))
    (n : Nat) (avg : ℚ) (query : String) (qts : List String) :
    ∀ (keys : List String) (idx : InvIndex) (rs : List Result),
      (collect M documents n avg query qts keys idx).1 = some rs →
      List.Sublist (rs.map Result.doc_id) keys := by
  intro keys
  induction keys with
  | nil =>
      intro idx rs h
      simp only [collect, Option.some.injEq] at h
      rw [← h]
      simp
  | cons d rest ih =>
      intro idx rs h
      rw [collect] at h
      rcases hbm : bm25_score M documents idx n avg query d with ⟨bm, idx1⟩
      rw [hbm] at h
      cases bm with
      | none => simp at h
      | some v =>
          rcases htf : tf_loop d qts idx1 0 with ⟨tf, idx2⟩
          simp only [htf] at h
          rcases hc : collect M documents n avg query qts rest idx2 with ⟨res3, idx3⟩
          simp only [hc] at h
          cases res3 with
          | none => simp at h
          | some rs3 =>
              simp only [Option.some.injEq] at h
              rw [← h]
              by_cases hpos :
                  0 < v * (7/10) + tf * (3/10)
              · rw [if_pos hpos]
                simp only [List.map_cons]
                exact List.Sublist.cons₂ d
                  (ih idx2 rs3 (by rw [hc]))
              · rw [if_neg hpos]
                exact List.Sublist.cons d (ih idx2 rs3 (by rw [hc]))

/-- A Python slice `l[:k]` is a prefix, hence a sublist, of `l`. -/
lemma py_take_sublist {α : Type} (k : Int) (l : List α) :
    List.Sublist (py_take k l) l := by
  unfold py_take
  by_cases h : 0 ≤ k
  · rw [if_pos h]; exact List.take_sublist _ _
  · rw [if_neg h]; exact List.take_sublist _ _

/-! ### Concrete evaluation helpers -/

/-- Counting a token that occurs exactly twice. -/
lemma counter_two (x : String) : counter_of [x, x] = [(x, 2)] := by
  simp [counter_of, dict_set, alookup]

/-- Effect of `add_document` on a fresh engine for a document whose combined
title/body text normalizes to one term repeated twice. -/
lemma add_document_single (M : Model) (d ti co u x : String)
    (h : preprocess_text M (ti ++ " " ++ co) = [x, x]) :
    add_document M empty_engine d ti co u =
      { documents := [(d, { title := ti, content := co.take 200 ++ "...",
                            url := u, tokens := [x, x] })],
        inverted_index := [(x, [(d, 2)])],
        total_docs := 1, avg_doc_length := 0 } := by
  simp only [add_document, empty_engine, h, counter_two]
  simp [dd_get, dict_set, alookup, has_key]

/-- Effect of re-issuing the same `add_document` call on the resulting
state: the stored record is overwritten in place, but the old inverted-index
count is incremented rather than replaced, and `total_docs` grows again. -/
lemma add_document_again (M : Model) (d ti co u x : String) (doc : Doc)
    (h : preprocess_text M (ti ++ " " ++ co) = [x, x]) :
    add_document M
        { documents := [(d, doc)], inverted_index := [(x, [(d, 2)])],
          total_docs := 1, avg_doc_length := 0 } d ti co u =
      { documents := [(d, { title := ti, content := co.take 200 ++ "...",
                            url := u, tokens := [x, x] })],
        inverted_index := [(x, [(d, 4)])],
        total_docs := 2, avg_doc_length := 0 } := by
  simp only [add_document, h, counter_two]
  simp [dd_get, dict_set, alookup, has_key]

/-- On a one-document corpus whose single indexed term matches the (single)
normalized query token, `search` hits the `doc_length / avg_doc_length`
division with `avg_doc_length = 0` and raises, for every `top_k`. -/
lemma search_one_doc_raises (M : Model) (d q x : String) (k : Int) (doc : Doc)
    (hq : preprocess_text M q = [x]) (hd : doc.tokens = [x, x]) :
    (search M { documents := [(d, doc)], inverted_index := [(x, [(d, 2)])],
                total_docs := 1, avg_doc_length := 0 } q k).1 = none := by
  simp [search, collect, bm25_score, bm_loop, has_key, alookup, dd_get, hq, hd]

/-- On the same corpus, a query that normalizes to no tokens matches
nothing, scores every document `0`, and returns the empty result list. -/
lemma search_one_doc_no_match (M : Model) (d x : String) (k : Int) (doc : Doc) :
    (search M { documents := [(d, doc)], inverted_index := [(x, [(d, 2)])],
                total_docs := 1, avg_doc_length := 0 } "" k).1 = some [] := by
  have hq : preprocess_text M "" = [] := rfl
  simp [search, collect, bm25_score, bm_loop, tf_loop, has_key, alookup,
    dd_get, hq, sort_desc, py_take]

/-- On an empty corpus `search` returns `[]` immediately, before any
normalization or scoring. -/
lemma search_empty_corpus (M : Model) (q : String) (k : Int) :
    (search M empty_engine q k).1 = some [] := rfl

/-! ### With a zero average, search can only raise or return nothing -/

/-- Every id drawn from the Document Store's key iteration is present in the
store. -/
lemma has_key_of_mem_keys (documents : List (String × Doc)) (d : String)
    (h : d ∈ documents.map Prod.fst) : has_key documents d = true := by
  induction documents with
  | nil => simp at h
  | cons p rest ih =>
      rcases p with ⟨k', v'⟩
      rw [List.map_cons, List.mem_cons] at h
      by_cases hd : d = k'
      · simp [has_key, alookup, hd]
      · have h' : d ∈ rest.map Prod.fst := by
          rcases h with h | h
          · exact absurd h hd
          · exact h
        simpa [has_key, alookup, hd] using ih h'

/-- With `avg_doc_length = 0`, the BM25 loop either raises, or completes
with its accumulator untouched because no query token matched the document
at all. -/
lemma bm_loop_avg_zero (M : Model) (d : String) (dl : ℚ) (n : Nat) :
    ∀ (toks : List String) (idx : InvIndex) (s : ℚ),
      (bm_loop M d dl n 0 toks idx s).1 = none ∨
      ((bm_loop M d dl n 0 toks idx s).1 = some s ∧
        ∀ t ∈ toks,
          ¬(has_key idx t = true ∧
            has_key ((alookup idx t).getD []) d = true)) := by
  intro toks
  induction toks with
  | nil => intro idx s; right; exact ⟨rfl, by simp⟩
  | cons t rest ih =>
      intro idx s
      rw [bm_loop]
      by_cases h1 : has_key idx t
      · simp only [if_pos h1, dd_get_of_mem h1]
        by_cases h2 : has_key ((alookup idx t).getD []) d
        · left
          simp only [if_pos h2, dd_get_of_mem h1]
          simp
        · simp only [if_neg h2]
          rcases ih idx s with h | ⟨he, hall⟩
          · left; exact h
          · right
            refine ⟨he, ?_⟩
            intro u hu
            rcases List.mem_cons.mp hu with hu | hu
            · rw [hu]; intro hc; exact h2 hc.2
            · exact hall u hu
      · simp only [if_neg h1]
        rcases ih idx s with h | ⟨he, hall⟩
        · left; exact h
        · right
          refine ⟨he, ?_⟩
          intro u hu
          rcases List.mem_cons.mp hu with hu | hu
          · rw [hu]; intro hc; exact h1 hc.1
          · exact hall u hu

/-- If no query token matches the document, the raw term-frequency loop
returns its accumulator unchanged. -/
lemma tf_loop_no_match (d : String) :
    ∀ (toks : List String) (idx : InvIndex) (acc : ℚ),
      (∀ t ∈ toks,
        ¬(has_key idx t = true ∧
          has_key ((alookup idx t).getD []) d = true)) →
      (tf_loop d toks idx acc).1 = acc := by
  intro toks
  induction toks with
  | nil => intro idx acc _; rfl
  | cons t rest ih =>
      intro idx acc hall
      rw [tf_loop]
      by_cases h1 : has_key idx t
      · simp only [if_pos h1, dd_get_of_mem h1]
        by_cases h2 : has_key ((alookup idx t).getD []) d
        · exact absurd ⟨h1, h2⟩ (hall t (List.mem_cons_self t rest))
        · simp only [if_neg h2]
          exact ih idx acc (fun u hu => hall u (List.mem_cons_of_mem t hu))
      · simp only [if_neg h1]
        exact ih idx acc (fun u hu => hall u (List.mem_cons_of_mem t hu))

/-- With `avg_doc_length = 0` and every iterated id present in the store,
the per-document loop either raises or produces the empty result list:
a matching term raises before it can score, and a non-matching document
scores `0` and is filtered out. -/
lemma collect_avg_zero (M : Model) (documents : List (String × Doc)) (n : Nat)
    (query : String) :
    ∀ (keys : List String) (idx : InvIndex) (rs : List Result),
      (∀ d ∈ keys, has_key documents d = true) →
      (collect M documents n 0 query (preprocess_text M query) keys idx).1 =
        some rs →
      rs = [] := by
  intro keys
  induction keys with
  | nil =>
      intro idx rs _ h
      simp only [collect, Option.some.injEq] at h
      exact h.symm
  | cons d rest ih =>
      intro idx rs hkeys h
      rw [collect] at h
      rcases hbm : bm25_score M documents idx n 0 query d with ⟨bm, idx1⟩
      rw [hbm] at h
      cases bm with
      | none => simp at h
      | some v =>
          have hdoc : has_key documents d = true :=
            hkeys d (List.mem_cons_self d rest)
          have hv : v = 0 ∧
              ∀ t ∈ preprocess_text M query,
                ¬(has_key idx t = true ∧
                  has_key ((alookup idx t).getD []) d = true) := by
            unfold bm25_score at hbm
            rw [if_pos hdoc] at hbm
            rcases bm_loop_avg_zero M d
                (((alookup documents d).getD default_doc).tokens.length : ℚ) n
                (preprocess_text M query) idx 0 with hz | ⟨hz, hall⟩
            · rw [hbm] at hz; simp at hz
            · rw [hbm] at hz
              simp only [Option.some.injEq] at hz
              exact ⟨hz, hall⟩
          rcases htf : tf_loop d (preprocess_text M query) idx1 0 with ⟨tf, idx2⟩
          have hidx1 : idx1 = idx := by
            have := bm25_score_idx M documents idx n 0 query d
            rw [hbm] at this; exact this
          have htf0 : tf = 0 := by
            have := tf_loop_no_match d (preprocess_text M query) idx1 0
              (by rw [hidx1]; exact hv.2)
            rw [htf] at this; simpa using this
          simp only [htf] at h
          rcases hc : collect M documents n 0 query (preprocess_text M query)
              rest idx2 with ⟨res3, idx3⟩
          simp only [hc] at h
          cases res3 with
          | none => simp at h
          | some rs3 =>
              simp only [Option.some.injEq] at h
              have hcomb : ¬(0 < v * (7/10) + tf * (3/10)) := by
                rw [hv.1, htf0]; norm_num
              rw [if_neg hcomb] at h
              rw [← h]
              exact ih idx2 rs3
                (fun u hu => hkeys u (List.mem_cons_of_mem d hu)) (by rw [hc])

/-- On any state with `avg_doc_length = 0` (every reachable state), a
`search` call that does not raise returns the empty result list. -/
lemma search_avg_zero_empty (M : Model) (e : Engine) (q : String) (k : Int)
    (havg : e.avg_doc_length = 0) :
    ∀ rs, (search M e q k).1 = some rs → rs = [] := by
  intro rs h
  unfold search at h
  by_cases h0 : e.total_docs = 0
  · rw [if_pos h0] at h
    simp only [Option.some.injEq] at h
    exact h.symm
  · rw [if_neg h0] at h
    rw [havg] at h
    rcases hc : collect M e.documents e.total_docs 0 q (preprocess_text M q)
        (e.documents.map Prod.fst) e.inverted_index with ⟨res, idx'⟩
    simp only [hc] at h
    cases res with
    | none => simp at h
    | some rs0 =>
        have h0' : rs0 = [] :=
          collect_avg_zero M e.documents e.total_docs q
            (e.documents.map Prod.fst) e.inverted_index rs0
            (fun d hd => has_key_of_mem_keys e.documents d hd) (by rw [hc])
        rw [h0'] at h
        simp only [Option.map_some', Option.some.injEq] at h
        rw [← h]
        simp [sort_desc, py_take]

/-! ### The two filter orders of the normalization pipeline agree -/

/-- Filtering by the source's conjoined condition equals the spec's two
separate filter passes (in the spec's order: length first, stopwords
second). -/
lemma filter_stop_len_comm (l : List String) :
    l.filter (fun t => decide (t ∉ stop_words) && decide (2 < t.length)) =
      (l.filter (fun t => decide (2 < t.length))).filter
        (fun t => decide (t ∉ stop_words)) := by
  induction l with
  | nil => rfl
  | cons t rest ih =>
      by_cases h1 : t ∈ stop_words
      · by_cases h2 : 2 < t.length
        · simp [List.filter_cons, h1, h2, ih]
        · simp [List.filter_cons, h1, h2, ih]
      · by_cases h2 : 2 < t.length
        · simp [List.filter_cons, h1, h2, ih]
        · simp [List.filter_cons, h1, h2, ih]

/-- Model instance with identity stemmer and logarithm.  It is used only to
state closed-form (binder-free) evaluations; the neighbouring lemmas
quantified over every `Model` show that nothing about the witnessed
divergence depends on this instantiation. -/
def plain_model : Model := { stem := fun t => t, rlog := fun q => q }

/-- The source pipeline drops `"cannot"` entirely: NLTK `word_tokenize`
splits it into `"can"` and `"not"`, both of which are stopwords.  Valid for
every stemmer. -/
lemma preprocess_cannot (M : Model) : preprocess_text M "cannot" = [] := rfl

/-- The spec pipeline keeps `"cannot"`: under a whitespace split it is a
single 6-character non-stopword token.  Valid for every stemmer. -/
lemma spec_normalize_cannot (M : Model) :
    spec_normalize M "cannot" = [M.stem "cannot"] := rfl

/-! ### Claim theorems -/

/-- Claim C1 (code defect): after the very first `add_document` call the
engine's `avg_doc_length` is still `0` while the arithmetic mean of the
stored token-sequence lengths is `2` — `add_document` never recomputes the
average, so the claimed invariant fails immediately after the first
document (and the spec itself flags this as a source defect). -/
theorem avg_doc_length_not_recomputed (M : Model) :
    (build_state M [⟨"d1", "cats", "cats", "u"⟩]).avg_doc_length = 0 ∧
    doc_mean_length (build_state M [⟨"d1", "cats", "cats", "u"⟩]) = 2 := by
  have hb : build_state M [⟨"d1", "cats", "cats", "u"⟩] =
      add_document M empty_engine "d1" "cats" "cats" "u" := rfl
  rw [hb, add_document_single M "d1" "cats" "cats" "u" (M.stem "cats") rfl]
  refine ⟨rfl, ?_⟩
  simp [doc_mean_length]

/-- Claim C2: for every sequence of `add_document` calls, saving and
reloading into a fresh instance reproduces a state on which `search`
behaves identically — same ranked results, in the same order, and the same
exceptional outcomes — for every query and every `top_k`.  (The reloaded
instance's `avg_doc_length` is the fresh `0`, which by `build_state_avg`
is exactly the original's never-recomputed value.) -/
theorem save_load_roundtrip_search (M : Model) (calls : List AddCall)
    (q : String) (k : Int) :
    (search M (load_index empty_engine (save_index (build_state M calls))) q k).1 =
      (search M (build_state M calls) q k).1 := by
  rw [load_save_eq _ (build_state_avg M calls)]

/-- Claim C3 (code defect): `add_document` increments `total_docs`
unconditionally, so after calling it twice with the same id `"d1"` the
counter reads `2` while the Document Store holds the single distinct id
(`documents.length = 1`; the two calls carry `1` distinct id). -/
theorem total_docs_overcounts_on_readd (M : Model) :
    (build_state M [⟨"d1", "cat", "cat", "u"⟩,
        ⟨"d1", "cat", "cat", "u"⟩]).total_docs = 2 ∧
    (build_state M [⟨"d1", "cat", "cat", "u"⟩,
        ⟨"d1", "cat", "cat", "u"⟩]).documents.length = 1 ∧
    (List.dedup ["d1", "d1"]).length = 1 := by
  have hb : build_state M [⟨"d1", "cat", "cat", "u"⟩, ⟨"d1", "cat", "cat", "u"⟩] =
      add_document M (add_document M empty_engine "d1" "cat" "cat" "u")
        "d1" "cat" "cat" "u" := rfl
  rw [hb, add_document_single M "d1" "cat" "cat" "u" (M.stem "cat") rfl,
    add_document_again M "d1" "cat" "cat" "u" (M.stem "cat") _ rfl]
  exact ⟨rfl, rfl, by decide⟩

/-- Claim C4 (code defect): re-adding id `"d9"` with the same two-token text
leaves the inverted index holding count `4` for `(stem "owl", "d9")`, while
the stored token sequence of `"d9"` contains that term only `2` times — the
old counts are never retracted, so the claimed index invariant fails. -/
theorem inverted_index_stale_on_readd (M : Model) :
    alookup2 (build_state M [⟨"d9", "owl", "owl", "u"⟩,
        ⟨"d9", "owl", "owl", "u"⟩]).inverted_index (M.stem "owl") "d9" =
      some 4 ∧
    (((alookup (build_state M [⟨"d9", "owl", "owl", "u"⟩,
        ⟨"d9", "owl", "owl", "u"⟩]).documents "d9").getD
          default_doc).tokens).count (M.stem "owl") = 2 := by
  have hb : build_state M [⟨"d9", "owl", "owl", "u"⟩, ⟨"d9", "owl", "owl", "u"⟩] =
      add_document M (add_document M empty_engine "d9" "owl" "owl" "u")
        "d9" "owl" "owl" "u" := rfl
  rw [hb, add_document_single M "d9" "owl" "owl" "u" (M.stem "owl") rfl,
    add_document_again M "d9" "owl" "owl" "u" (M.stem "owl") _ rfl]
  constructor
  · simp [alookup2, alookup]
  · simp [alookup, List.count_cons]

/-- Claim C5 (code defect): on the reachable state holding the single
document `"d2"` (text `"dog dog"`), the matching query `"dog"` drives
`bm25_score` into the `doc_length / avg_doc_length` division with
`avg_doc_length = 0`, so `search` raises (`none`) instead of scoring;
the empty-corpus short-circuit itself works and returns `[]`. -/
theorem search_divides_by_zero_on_match (M : Model) :
    (search M (build_state M [⟨"d2", "dog", "dog", "u"⟩]) "dog" 10).1 = none ∧
    (search M empty_engine "dog" 3).1 = some [] := by
  constructor
  · have hb : build_state M [⟨"d2", "dog", "dog", "u"⟩] =
        add_document M empty_engine "d2" "dog" "dog" "u" := rfl
    rw [hb, add_document_single M "d2" "dog" "dog" "u" (M.stem "dog") rfl]
    exact search_one_doc_raises M "d2" "dog" (M.stem "dog") 10 _ rfl rfl
  · rfl

/-- Claim C6 (code defect): the combined-score formula can never be
delivered.  First conjunct: on the reachable corpus `{"d4" ↦ "sun sun"}`
the query `"sun"` (which the claim says must be returned with positive
combined score `0.7 * bm25 + 0.3 * tf`) makes `search` raise
`ZeroDivisionError` (`none`) while evaluating the BM25 denominator, because
`avg_doc_length` is `0` in every reachable state.  Second conjunct, fully
general: on every reachable state and for every query and `top_k`, a
`search` call that does not raise returns the empty list — no result
carrying the claimed score is ever produced. -/
theorem search_never_returns_scored_results (M : Model) :
    (search M (build_state M [⟨"d4", "sun", "sun", "u"⟩]) "sun" 5).1 = none ∧
    (∀ (calls : List AddCall) (q : String) (k : Int) (rs : List Result),
      (search M (build_state M calls) q k).1 = some rs → rs = []) := by
  constructor
  · have hb : build_state M [⟨"d4", "sun", "sun", "u"⟩] =
        add_document M empty_engine "d4" "sun" "sun" "u" := rfl
    rw [hb, add_document_single M "d4" "sun" "sun" "u" (M.stem "sun") rfl]
    exact search_one_doc_raises M "d4" "sun" (M.stem "sun") 5 _ rfl rfl
  · intro calls q k rs h
    exact search_avg_zero_empty M (build_state M calls) q k
      (build_state_avg M calls) rs h

/-- Witness for the hypothesis-bearing part of the previous theorem: on the
empty call sequence the hypothesis `search ... = some []` holds by
computation, and the theorem instantiates to `[] = []`. -/
theorem search_never_returns_scored_results_witness :
    (search plain_model (build_state plain_model []) "sun" 5).1 =
        some ([] : List Result) ∧
    ([] : List Result) = [] :=
  ⟨rfl, (search_never_returns_scored_results plain_model).2 [] "sun" 5 [] rfl⟩

/-- Claim C7 (code defect): with the one-document corpus `{"d3" ↦ "fox
fox"}`, `search("fox", 0)` raises (`none`) instead of returning the claimed
empty sequence — the per-document scoring loop runs (and divides by the
zero `avg_doc_length`) before `top_k` is ever consulted.  A query with no
surviving normalized term does return `[]` without error. -/
theorem search_topk_zero_still_raises (M : Model) :
    (search M (build_state M [⟨"d3", "fox", "fox", "u"⟩]) "fox" 0).1 = none ∧
    (search M (build_state M [⟨"d3", "fox", "fox", "u"⟩]) "" 7).1 = some [] := by
  have hb : build_state M [⟨"d3", "fox", "fox", "u"⟩] =
      add_document M empty_engine "d3" "fox" "fox" "u" := rfl
  rw [hb, add_document_single M "d3" "fox" "fox" "u" (M.stem "fox") rfl]
  exact ⟨search_one_doc_raises M "d3" "fox" (M.stem "fox") 0 _ rfl rfl,
    search_one_doc_no_match M "d3" (M.stem "fox") 7 _⟩

/-- Claim C8, counterexample: on input `"cannot"` the source pipeline
returns `[]` (NLTK `word_tokenize` splits the word into the two stopwords
`"can"` and `"not"`), while the spec's whitespace-split pipeline returns
the singleton `["cannot"]` — so `preprocess_text` does not equal the
spec's reference pipeline. -/
theorem preprocess_ne_spec_on_cannot :
    preprocess_text plain_model "cannot" = [] ∧
    spec_normalize plain_model "cannot" = ["cannot"] ∧
    preprocess_text plain_model "cannot" ≠ spec_normalize plain_model "cannot" := by
  refine ⟨rfl, rfl, ?_⟩
  intro h
  rw [preprocess_cannot, spec_normalize_cannot] at h
  exact List.noConfusion h

/-- Claim C8, amended: `preprocess_text` equals the spec's reference
pipeline with its tokenization step replaced by NLTK `word_tokenize`
(whitespace splitting plus the Treebank fused-contraction splits); every
other step — lowercasing, non-letter stripping, dropping tokens of length
at most 2, dropping stopwords, stemming, order and duplicate preservation —
is exactly as the spec claims, for every input and every stemmer. -/
theorem preprocess_eq_spec_with_treebank_tokenizer (M : Model) (text : String) :
    preprocess_text M text = spec_normalize_treebank M text := by
  unfold preprocess_text spec_normalize_treebank
  rw [filter_stop_len_comm]

/-- Claim C9: neither `bm25_score` nor `search` changes any observable
engine state: the inverted index comes back pointer-equal (no `defaultdict`
entry is materialized for unseen query terms, every subscript being guarded
by a membership test), and the whole engine record after `search` equals
the one before. -/
theorem search_and_bm25_leave_state_unchanged (M : Model) (e : Engine)
    (q doc_id : String) (k : Int) :
    (bm25_score M e.documents e.inverted_index e.total_docs e.avg_doc_length
        q doc_id).2 = e.inverted_index ∧
    (search M e q k).2 = e :=
  ⟨bm25_score_idx M e.documents e.inverted_index e.total_docs
      e.avg_doc_length q doc_id,
    search_state_eq M e q k⟩

/-- Claim C10: repeating `search` with the same query and `top_k` on the
state the first call hands back yields the same result value, and within
any single combined-score class the returned results carry their document
ids as a subsequence of the Document Store's insertion order — the sort is
stable, so equal-score documents appear in insertion order. -/
theorem search_deterministic_and_stable (M : Model) (e : Engine) (q : String)
    (k : Int) (s : ℚ) :
    (search M (search M e q k).2 q k).1 = (search M e q k).1 ∧
    List.Sublist
      ((((search M e q k).1.getD []).filter
          (fun r => decide (r.score = s))).map Result.doc_id)
      (e.documents.map Prod.fst) := by
  constructor
  · rw [search_state_eq]
  · unfold search
    by_cases h : e.total_docs = 0
    · simp [h]
    · simp only [if_neg h]
      rcases hc : collect M e.documents e.total_docs e.avg_doc_length q
          (preprocess_text M q) (e.documents.map Prod.fst) e.inverted_index
        with ⟨res, idx'⟩
      cases res with
      | none => simp
      | some rs =>
          simp only [Option.map_some', Option.getD_some]
          have h1 : List.Sublist
              ((py_take k (sort_desc rs)).filter (fun r => decide (r.score = s)))
              ((sort_desc rs).filter (fun r => decide (r.score = s))) :=
            List.Sublist.filter _ (py_take_sublist k (sort_desc rs))
          rw [filter_sort_desc] at h1
          have h2 : List.Sublist (rs.filter (fun r => decide (r.score = s))) rs :=
            List.filter_sublist rs
          have h3 := collect_doc_ids_sublist M e.documents e.total_docs
            e.avg_doc_length q (preprocess_text M q)
            (e.documents.map Prod.fst) e.inverted_index rs (by rw [hc])
          exact ((List.Sublist.map Result.doc_id h1).trans
            (List.Sublist.map Result.doc_id h2)).trans h3

end MiniGoogle
